import Mathlib

/-!
# Verification of the fantasy-points-allowed aggregation pipeline

Shallow embedding of the data-aggregation pipeline in `src/main.py`
(functions `get_rushers`, `get_passers`, `get_receivers`, `get_players`,
`get_two_year_roster_data`, and `get_fpa_by_position`), as lists of
records over `Option`-typed nullable columns, with fantasy points as
exact rationals.

Pandas semantics embedded here:
* `groupby(keys, dropna=False).agg(...)` produces one output row per
  distinct key tuple (null-valued keys kept as their own groups); we
  realise the distinct keys with `List.dedup` and aggregate by filtering.
* `.count()` of a non-null column over a group is the group size
  (`play_id` is modelled as always present, as in the source data).
* `.sum()` skips nulls, so a column of nullable rationals is summed via
  `Option.getD 0`; an all-null group sums to `0`.
* `pd.merge(how='inner')` pairs each left row with every matching right
  row; `how='left'` additionally keeps an unmatched left row once, with
  null right-hand columns.
* The statement `fixed_data.loc['position'] = fixed_data['position'].replace('FB', 'RB')`
  (line 178 of the source) does NOT update the `position` column: `.loc`
  with a single label addresses a ROW, so it enlarges the frame with a
  new row labelled `'position'` whose values are the right-hand Series
  aligned against the frame's column names — an alignment with empty
  intersection, hence an all-null row.  We embed it as appending
  `positionAssignmentRow`, a row with every column null.
-/

namespace FPA

/-- One play record of the play-by-play dataset (columns used by the
pipeline).  `play_id` is always present in the source data. -/
structure PlayRecord where
  play_id : Nat
  week : Nat
  posteam : Option String
  defteam : Option String
  special_teams_play : Bool
  epa : Option Rat
  season_type : String
  play_type : String
  rusher_player_id : Option String
  rusher_player_name : Option String
  passer_player_id : Option String
  passer_player_name : Option String
  receiver_player_id : Option String
  receiver_player_name : Option String
deriving DecidableEq

/-- The row filter of `get_pbp_data` (applied to freshly fetched
play-by-play data): drop special-teams plays, rows with missing `epa`,
non-regular-season rows, and play types other than pass/run. -/
def pbpFilter (data : List PlayRecord) : List PlayRecord :=
  data.filter (fun p => p.special_teams_play = false ∧ p.epa ≠ none ∧
    p.season_type = "REG" ∧ (p.play_type = "pass" ∨ p.play_type = "run"))

/-- Grouping key of the per-role and merged participation tables:
(player name, player id, week, posteam, defteam). -/
abbrev Key5 := Option String × Option String × Nat × Option String × Option String

/-- One participation row: a (player, week, offense, defense) group with
its play count. -/
structure ParticipationRow where
  player : Option String
  player_id : Option String
  week : Nat
  posteam : Option String
  defteam : Option String
  plays : Nat
deriving DecidableEq

/-- The grouping key of a participation row. -/
def ParticipationRow.key (r : ParticipationRow) : Key5 :=
  (r.player, r.player_id, r.week, r.posteam, r.defteam)

/-- Build a participation row from a key and a play count. -/
def mkParticipation (k : Key5) (n : Nat) : ParticipationRow :=
  { player := k.1, player_id := k.2.1, week := k.2.2.1,
    posteam := k.2.2.2.1, defteam := k.2.2.2.2, plays := n }

/-- Common shape of `get_rushers` / `get_passers` / `get_receivers`:
filter to plays with a non-null id for the role, group by
(name, id, week, posteam, defteam) with `dropna=False`, and count plays. -/
def roleParticipation (pname pid : PlayRecord → Option String)
    (df : List PlayRecord) : List ParticipationRow :=
  let rows := df.filter (fun p => pid p ≠ none)
  let key : PlayRecord → Key5 := fun p => (pname p, pid p, p.week, p.posteam, p.defteam)
  ((rows.map key).dedup).map
    (fun k => mkParticipation k ((rows.filter (fun p => key p = k)).length))

/-- `get_rushers` of the source. -/
def get_rushers (df : List PlayRecord) : List ParticipationRow :=
  roleParticipation (fun p => p.rusher_player_name) (fun p => p.rusher_player_id) df

/-- `get_passers` of the source. -/
def get_passers (df : List PlayRecord) : List ParticipationRow :=
  roleParticipation (fun p => p.passer_player_name) (fun p => p.passer_player_id) df

/-- `get_receivers` of the source. -/
def get_receivers (df : List PlayRecord) : List ParticipationRow :=
  roleParticipation (fun p => p.receiver_player_name) (fun p => p.receiver_player_id) df

/-- `get_players` of the source: concatenate the three per-role tables and
group by the shared key (`dropna=False`), summing play counts. -/
def get_players (data : List PlayRecord) : List ParticipationRow :=
  let players := get_rushers data ++ get_passers data ++ get_receivers data
  ((players.map ParticipationRow.key).dedup).map
    (fun k => mkParticipation k
      (((players.filter (fun r => r.key = k)).map (fun r => r.plays)).sum))

/-- One row of the player-week statistics dataset (columns used). -/
structure PlayerStat where
  player_id : String
  week : Nat
  fantasy_points : Rat
  fantasy_points_ppr : Rat
deriving DecidableEq

/-- One roster entry (columns used). -/
structure RosterEntry where
  gsis_id : String
  season : Nat
  pos : Option String
deriving DecidableEq

/-- `get_two_year_roster_data`: concatenate the two seasons' rosters and
keep each row whose season equals the per-`gsis_id` maximum season
(the `groupby('gsis_id')['season'].transform(max) == season` mask). -/
def get_two_year_roster_data (roster_data roster_data_prev_year : List RosterEntry) :
    List RosterEntry :=
  let two := roster_data ++ roster_data_prev_year
  two.filter (fun r =>
    ((two.filter (fun s => s.gsis_id = r.gsis_id)).map (fun s => s.season)).foldl max 0
      = r.season)

/-- A row of `joined_data`: participation inner-joined to player-week
statistics on (player id, week). -/
structure JoinedRow where
  player : Option String
  player_id : Option String
  week : Nat
  posteam : Option String
  defteam : Option String
  plays : Nat
  fantasy_points : Rat
  fantasy_points_ppr : Rat
deriving DecidableEq

/-- The `pd.merge(players, player_stats_data, how='inner', on=['player_id', 'week'])`
of the source: each participation row paired with every matching stat row. -/
def inner_join_stats (players : List ParticipationRow) (stats : List PlayerStat) :
    List JoinedRow :=
  players.flatMap (fun p =>
    (stats.filter (fun s => p.player_id = some s.player_id ∧ p.week = s.week)).map
      (fun s =>
        { player := p.player, player_id := p.player_id, week := p.week,
          posteam := p.posteam, defteam := p.defteam, plays := p.plays,
          fantasy_points := s.fantasy_points,
          fantasy_points_ppr := s.fantasy_points_ppr }))

/-- A row of `tri_data`: the joined row further left-joined to the
two-year roster lookup on player id = gsis_id. -/
structure TriRow where
  player : Option String
  player_id : Option String
  week : Nat
  posteam : Option String
  defteam : Option String
  plays : Nat
  fantasy_points : Rat
  fantasy_points_ppr : Rat
  gsis_id : Option String
  season : Option Nat
  pos : Option String
deriving DecidableEq

/-- Attach (nullable) roster columns to a joined row. -/
def JoinedRow.triOf (j : JoinedRow) (g : Option String) (s : Option Nat)
    (p : Option String) : TriRow :=
  { player := j.player, player_id := j.player_id, week := j.week,
    posteam := j.posteam, defteam := j.defteam, plays := j.plays,
    fantasy_points := j.fantasy_points, fantasy_points_ppr := j.fantasy_points_ppr,
    gsis_id := g, season := s, pos := p }

/-- The `pd.merge(joined_data, two_year_roster_data, how='left', left_on=['player_id'], right_on=['gsis_id'])`
of the source: matched left rows paired with every match, unmatched left
rows kept once with null roster columns. -/
def left_join_roster (joined : List JoinedRow) (roster : List RosterEntry) :
    List TriRow :=
  joined.flatMap (fun j =>
    let ms := roster.filter (fun r => j.player_id = some r.gsis_id)
    if ms = [] then [j.triOf none none none]
    else ms.map (fun r => j.triOf (some r.gsis_id) (some r.season) r.pos))

/-- A row of `fixed_data` (only the columns read downstream: the grouping
keys of the final aggregation and the two summed fantasy-point columns,
both nullable after the concatenation). -/
structure FixedRow where
  week : Option Nat
  posteam : Option String
  defteam : Option String
  pos : Option String
  fantasy_points : Option Rat
  fantasy_points_ppr : Option Rat
deriving DecidableEq

/-- View an attributed row as a `fixed_data` row (all its own columns
present). -/
def TriRow.toFixed (t : TriRow) : FixedRow :=
  { week := some t.week, posteam := t.posteam, defteam := t.defteam,
    pos := t.pos, fantasy_points := some t.fantasy_points,
    fantasy_points_ppr := some t.fantasy_points_ppr }

/-- `unconventional_ball_carriers`: attributed rows whose position is not
one of QB, RB, FB, TE, WR (`isin(...) == False`; a null position is
`False` under `isin`, hence kept). -/
def unconventional_ball_carriers (tri : List TriRow) : List TriRow :=
  tri.filter (fun t => ¬ (t.pos = some "QB" ∨ t.pos = some "RB" ∨
    t.pos = some "FB" ∨ t.pos = some "TE" ∨ t.pos = some "WR"))

/-- `non_skill_pos_data`: group the unconventional ball carriers by
(week, posteam, defteam) with `dropna=False`, sum their standard
`fantasy_points`, keep groups whose sum strictly exceeds 6, and label
them with position `non_skill`.  The synthetic rows carry no
`fantasy_points_ppr` value (that column is null after the concat). -/
def non_skill_pos_data (tri : List TriRow) : List FixedRow :=
  let u := unconventional_ball_carriers tri
  let grouped : List ((Nat × Option String × Option String) × Rat) :=
    ((u.map (fun t => (t.week, t.posteam, t.defteam))).dedup).map
      (fun k => (k, ((u.filter (fun t => (t.week, t.posteam, t.defteam) = k)).map
        (fun t => t.fantasy_points)).sum))
  (grouped.filter (fun kv => 6 < kv.2)).map
    (fun kv =>
      { week := some kv.1.1, posteam := kv.1.2.1, defteam := kv.1.2.2,
        pos := some "non_skill", fantasy_points := some kv.2,
        fantasy_points_ppr := none })

/-- The all-null row created by line 178 of the source,
`fixed_data.loc['position'] = fixed_data['position'].replace('FB', 'RB')`:
`.loc['position']` enlarges the frame with a row labelled `'position'`,
and aligning the integer-indexed right-hand Series against the string
column labels fills every column of that row with null.  The `position`
column itself is left unchanged. -/
def positionAssignmentRow : FixedRow :=
  { week := none, posteam := none, defteam := none, pos := none,
    fantasy_points := none, fantasy_points_ppr := none }

/-- `fixed_data` before the position filter: the attributed rows, the
synthetic non-skill rows, and the stray all-null row of line 178. -/
def fixed_concat (tri : List TriRow) : List FixedRow :=
  tri.map TriRow.toFixed ++ non_skill_pos_data tri ++ [positionAssignmentRow]

/-- `fixed_data` after the filter
`fixed_data.position.isin(['QB', 'RB', 'WR', 'TE', 'non_skill'])`. -/
def fixed_filtered (tri : List TriRow) : List FixedRow :=
  (fixed_concat tri).filter (fun f => f.pos = some "QB" ∨ f.pos = some "RB" ∨
    f.pos = some "WR" ∨ f.pos = some "TE" ∨ f.pos = some "non_skill")

/-- Grouping key of the final aggregation: (week, defteam, posteam, position). -/
abbrev OutKey := Option Nat × Option String × Option String × Option String

/-- One row of the final aggregated allowance table. -/
structure FpaRow where
  week : Option Nat
  defteam : Option String
  posteam : Option String
  pos : Option String
  fantasy_points : Rat
  fantasy_points_ppr : Rat
deriving DecidableEq

/-- The grouping key of a `fixed_data` row for the final aggregation. -/
def FixedRow.outKey (f : FixedRow) : OutKey := (f.week, f.defteam, f.posteam, f.pos)

/-- The grouping key carried by a final aggregated row. -/
def FpaRow.outKey (r : FpaRow) : OutKey := (r.week, r.defteam, r.posteam, r.pos)

/-- The final `groupby(['week', 'defteam', 'posteam', 'position'], dropna=False).sum()`
over `fixed_data`, summing the two nullable fantasy-point columns with
pandas null-skipping semantics. -/
def fpa_groupby (fixed : List FixedRow) : List FpaRow :=
  ((fixed.map FixedRow.outKey).dedup).map
    (fun k =>
      let g := fixed.filter (fun f => f.outKey = k)
      { week := k.1, defteam := k.2.1, posteam := k.2.2.1, pos := k.2.2.2,
        fantasy_points := (g.map (fun f => f.fantasy_points.getD 0)).sum,
        fantasy_points_ppr := (g.map (fun f => f.fantasy_points_ppr.getD 0)).sum })

/-- `joined_data` of `get_fpa_by_position` as a function of the raw inputs. -/
def joined_data (pbp : List PlayRecord) (stats : List PlayerStat) : List JoinedRow :=
  inner_join_stats (get_players (pbpFilter pbp)) stats

/-- `tri_data` of `get_fpa_by_position` as a function of the raw inputs. -/
def tri_data (pbp : List PlayRecord) (stats : List PlayerStat)
    (roster roster_prev : List RosterEntry) : List TriRow :=
  left_join_roster (joined_data pbp stats) (get_two_year_roster_data roster roster_prev)

/-- The cache-miss computation of `get_fpa_by_position`: the full
aggregation pipeline from the raw datasets to the final table. -/
def get_fpa_by_position_compute (pbp : List PlayRecord) (stats : List PlayerStat)
    (roster roster_prev : List RosterEntry) : List FpaRow :=
  fpa_groupby (fixed_filtered (tri_data pbp stats roster roster_prev))

/-- The raw datasets fetched on a cache miss. -/
structure RawInputs where
  pbp : List PlayRecord
  player_stats : List PlayerStat
  roster : List RosterEntry
  roster_prev : List RosterEntry
deriving DecidableEq

/-- `get_fpa_by_position` with its cache behaviour made explicit: the
first component is the returned table (or the propagated fetch error),
the second the cache artifact state after the call.  A present artifact
is returned as-is; on a miss the upstream fetches run (modelled as a
single `Except` supplying all raw datasets), a fetch failure propagates
with the cache left unwritten, and a successful computation is written
to the cache before being returned. -/
def get_fpa_by_position (cache : Option (List FpaRow))
    (fetch : Except String RawInputs) :
    Except String (List FpaRow) × Option (List FpaRow) :=
  match cache with
  | some t => (Except.ok t, some t)
  | none =>
    match fetch with
    | Except.error e => (Except.error e, none)
    | Except.ok raw =>
      let t := get_fpa_by_position_compute raw.pbp raw.player_stats raw.roster raw.roster_prev
      (Except.ok t, some t)

/-! ## Generic facts about the embedded `groupby` pattern -/

/-- Filtering a duplicate-free list for one key yields that key at most once. -/
theorem nodup_filter_eq {κ : Type} [DecidableEq κ] (l : List κ) (hl : l.Nodup) (k : κ) :
    l.filter (fun x => x = k) = if k ∈ l then [k] else [] := by
  induction l with
  | nil => simp
  | cons a t ih =>
    rcases List.nodup_cons.mp hl with ⟨ha, ht⟩
    by_cases hak : a = k
    · subst hak
      have htk : t.filter (fun x => x = a) = [] :=
        List.filter_eq_nil_iff.mpr (fun x hx => by
          simp only [decide_eq_true_eq]
          intro hxa; exact ha (hxa ▸ hx))
      simp [List.filter_cons, htk]
    · simp [List.filter_cons, hak, ih ht, Ne.symm hak]

/-- Filtering a `groupby`-style table (one built row per distinct key) for a
single key yields the row built from that key, when the key occurs. -/
theorem groupMap_filter_key {κ β : Type} [DecidableEq κ]
    (keys : List κ) (build : κ → β) (keyOf : β → κ)
    (hbuild : ∀ k, keyOf (build k) = k) (k0 : κ) :
    (keys.dedup.map build).filter (fun b => keyOf b = k0)
      = if k0 ∈ keys then [build k0] else [] := by
  rw [List.filter_map]
  have h1 : keys.dedup.filter ((fun b => decide (keyOf b = k0)) ∘ build)
      = keys.dedup.filter (fun k => k = k0) := by
    apply List.filter_congr
    intro k _
    simp [Function.comp, hbuild k]
  rw [h1, nodup_filter_eq _ (List.nodup_dedup keys) k0]
  by_cases hk : k0 ∈ keys
  · simp [hk, List.mem_dedup]
  · simp [hk, List.mem_dedup]

/-- Membership in a `groupby`-style table: exactly the rows built from the
occurring keys. -/
theorem mem_groupMap {κ β : Type} [DecidableEq κ]
    (keys : List κ) (build : κ → β) (b : β) :
    b ∈ keys.dedup.map build ↔ ∃ k ∈ keys, build k = b := by
  simp [List.mem_map, List.mem_dedup]

/-! ## Participation extractor -/

theorem key_mkParticipation (k : Key5) (n : Nat) : (mkParticipation k n).key = k := by
  obtain ⟨a, b, c, d, e⟩ := k
  rfl

/-- Specification-side count (the claim's words): the number of play
records carrying the given non-null player id in the given role, for the
given (week, offense, defense). -/
def claimRolePlays (pid : PlayRecord → Option String) (df : List PlayRecord)
    (i : String) (w : Nat) (o d : Option String) : Nat :=
  (df.filter (fun p => pid p = some i ∧ p.week = w ∧ p.posteam = o ∧ p.defteam = d)).length

/-- The group of plays a per-role table aggregates for the key of player
`i` (named `nameOf i`) is exactly the claim's count, provided every play
names the player consistently with `nameOf`. -/
theorem roleParticipation_group_eq (pname pid : PlayRecord → Option String)
    (df : List PlayRecord) (nameOf : String → Option String)
    (h : ∀ p ∈ df, ∀ i, pid p = some i → pname p = nameOf i)
    (i : String) (w : Nat) (o d : Option String) :
    ((df.filter (fun p => pid p ≠ none)).filter
        (fun p => ((pname p, pid p, p.week, p.posteam, p.defteam) : Key5)
          = (nameOf i, some i, w, o, d)))
      = df.filter (fun p => pid p = some i ∧ p.week = w ∧ p.posteam = o ∧ p.defteam = d) := by
  rw [List.filter_filter]
  apply List.filter_congr
  intro p hp
  rw [← Bool.decide_and, decide_eq_decide]
  constructor
  · rintro ⟨hkey, -⟩
    simp only [Prod.mk.injEq] at hkey
    exact ⟨hkey.2.1, hkey.2.2.1, hkey.2.2.2.1, hkey.2.2.2.2⟩
  · rintro ⟨hid, hw, ho, hd⟩
    refine ⟨?_, by simp [hid]⟩
    simp only [Prod.mk.injEq]
    exact ⟨h p hp i hid, hid, hw, ho, hd⟩

/-- Filtering a per-role participation table for one player key yields a
single row carrying the claim's play count (or nothing when the player
has no such play). -/
theorem roleParticipation_filter_key (pname pid : PlayRecord → Option String)
    (df : List PlayRecord) (nameOf : String → Option String)
    (h : ∀ p ∈ df, ∀ i, pid p = some i → pname p = nameOf i)
    (i : String) (w : Nat) (o d : Option String) :
    ((roleParticipation pname pid df).filter
        (fun r => r.key = (nameOf i, some i, w, o, d))).map (fun r => r.plays)
      = if claimRolePlays pid df i w o d = 0 then []
        else [claimRolePlays pid df i w o d] := by
  have hgroup := roleParticipation_group_eq pname pid df nameOf h i w o d
  simp only [roleParticipation]
  rw [groupMap_filter_key _ _ ParticipationRow.key (fun k => key_mkParticipation k _) _]
  by_cases hmem : ((nameOf i, some i, w, o, d) : Key5) ∈
      (df.filter (fun p => pid p ≠ none)).map
        (fun p => ((pname p, pid p, p.week, p.posteam, p.defteam) : Key5))
  · have hne : claimRolePlays pid df i w o d ≠ 0 := by
      intro h0
      rw [claimRolePlays, List.length_eq_zero] at h0
      rcases List.mem_map.mp hmem with ⟨p, hp, hkey⟩
      have hmemg : p ∈ (df.filter (fun p => pid p ≠ none)).filter
          (fun p => ((pname p, pid p, p.week, p.posteam, p.defteam) : Key5)
            = (nameOf i, some i, w, o, d)) :=
        List.mem_filter.mpr ⟨hp, by simp [hkey]⟩
      rw [hgroup, h0] at hmemg
      simp at hmemg
    simp only [hmem, if_true, hne, if_false, List.map_cons, List.map_nil, mkParticipation]
    rw [claimRolePlays, ← hgroup]
  · have h0 : claimRolePlays pid df i w o d = 0 := by
      by_contra h0
      rw [claimRolePlays, ← hgroup] at h0
      have hnil : ((df.filter (fun p => pid p ≠ none)).filter
          (fun p => ((pname p, pid p, p.week, p.posteam, p.defteam) : Key5)
            = (nameOf i, some i, w, o, d))) ≠ [] := by
        intro hnil
        rw [hnil] at h0
        exact h0 rfl
      rcases List.exists_mem_of_ne_nil _ hnil with ⟨p, hp⟩
      rcases List.mem_filter.mp hp with ⟨hp1, hp2⟩
      simp only [decide_eq_true_eq] at hp2
      exact hmem (List.mem_map.mpr ⟨p, hp1, hp2⟩)
    rw [if_neg hmem, if_pos h0]
    rfl

theorem role_sum_and_empty (tab : List ParticipationRow) (c : Nat)
    (htab : tab.map (fun r => r.plays) = if c = 0 then [] else [c]) :
    (tab.map (fun r => r.plays)).sum = c ∧ (tab = [] ↔ c = 0) := by
  by_cases hc : c = 0
  · rw [hc, if_pos rfl] at htab
    exact ⟨by rw [htab]; simp [hc], by simp [List.map_eq_nil_iff.mp htab, hc]⟩
  · rw [if_neg hc] at htab
    refine ⟨by rw [htab]; simp, ?_⟩
    simp only [hc, iff_false]
    intro hnil
    rw [hnil] at htab
    exact List.cons_ne_nil c [] htab.symm

/-- C5: for every play-record input (with player names consistent per
player id), `get_players` produces exactly one participation row per
(player name, player id, week, offense, defense) tuple — none when the
player has no qualifying play — and its `plays` value is the number of
play records with that player's non-null id in the rusher role, plus the
passer role, plus the receiver role, for that (week, offense, defense). -/
theorem C5_get_players_one_row_per_player (data : List PlayRecord)
    (nameOf : String → Option String)
    (hr : ∀ p ∈ data, ∀ i, p.rusher_player_id = some i → p.rusher_player_name = nameOf i)
    (hpa : ∀ p ∈ data, ∀ i, p.passer_player_id = some i → p.passer_player_name = nameOf i)
    (hre : ∀ p ∈ data, ∀ i, p.receiver_player_id = some i → p.receiver_player_name = nameOf i)
    (i : String) (w : Nat) (o d : Option String) :
    ((get_players data).filter
        (fun r => r.key = (nameOf i, some i, w, o, d))).map (fun r => r.plays)
      = if claimRolePlays (fun p => p.rusher_player_id) data i w o d
            + claimRolePlays (fun p => p.passer_player_id) data i w o d
            + claimRolePlays (fun p => p.receiver_player_id) data i w o d = 0
        then []
        else [claimRolePlays (fun p => p.rusher_player_id) data i w o d
              + claimRolePlays (fun p => p.passer_player_id) data i w o d
              + claimRolePlays (fun p => p.receiver_player_id) data i w o d] := by
  have hR := role_sum_and_empty _ _
    (roleParticipation_filter_key (fun p => p.rusher_player_name)
      (fun p => p.rusher_player_id) data nameOf hr i w o d)
  have hP := role_sum_and_empty _ _
    (roleParticipation_filter_key (fun p => p.passer_player_name)
      (fun p => p.passer_player_id) data nameOf hpa i w o d)
  have hC := role_sum_and_empty _ _
    (roleParticipation_filter_key (fun p => p.receiver_player_name)
      (fun p => p.receiver_player_id) data nameOf hre i w o d)
  simp only [get_players, get_rushers, get_passers, get_receivers]
  rw [groupMap_filter_key _ _ ParticipationRow.key (fun k => key_mkParticipation k _) _]
  have hLfilter :
      ((roleParticipation (fun p => p.rusher_player_name) (fun p => p.rusher_player_id) data ++
        roleParticipation (fun p => p.passer_player_name) (fun p => p.passer_player_id) data ++
        roleParticipation (fun p => p.receiver_player_name) (fun p => p.receiver_player_id) data).filter
          (fun r => r.key = (nameOf i, some i, w, o, d)))
      = (roleParticipation (fun p => p.rusher_player_name) (fun p => p.rusher_player_id) data).filter
          (fun r => r.key = (nameOf i, some i, w, o, d)) ++
        (roleParticipation (fun p => p.passer_player_name) (fun p => p.passer_player_id) data).filter
          (fun r => r.key = (nameOf i, some i, w, o, d)) ++
        (roleParticipation (fun p => p.receiver_player_name) (fun p => p.receiver_player_id) data).filter
          (fun r => r.key = (nameOf i, some i, w, o, d)) := by
    rw [List.filter_append, List.filter_append]
  have hsum : (((roleParticipation (fun p => p.rusher_player_name) (fun p => p.rusher_player_id) data ++
        roleParticipation (fun p => p.passer_player_name) (fun p => p.passer_player_id) data ++
        roleParticipation (fun p => p.receiver_player_name) (fun p => p.receiver_player_id) data).filter
          (fun r => r.key = (nameOf i, some i, w, o, d))).map (fun r => r.plays)).sum
      = claimRolePlays (fun p => p.rusher_player_id) data i w o d
        + claimRolePlays (fun p => p.passer_player_id) data i w o d
        + claimRolePlays (fun p => p.receiver_player_id) data i w o d := by
    rw [hLfilter, List.map_append, List.map_append, List.sum_append, List.sum_append,
      hR.1, hP.1, hC.1]
  by_cases hn : claimRolePlays (fun p => p.rusher_player_id) data i w o d
      + claimRolePlays (fun p => p.passer_player_id) data i w o d
      + claimRolePlays (fun p => p.receiver_player_id) data i w o d = 0
  · rcases Nat.add_eq_zero.mp hn with ⟨hn12, hc0⟩
    rcases Nat.add_eq_zero.mp hn12 with ⟨hr0, hp0⟩
    have hmem : ((nameOf i, some i, w, o, d) : Key5) ∉
        (roleParticipation (fun p => p.rusher_player_name) (fun p => p.rusher_player_id) data ++
          roleParticipation (fun p => p.passer_player_name) (fun p => p.passer_player_id) data ++
          roleParticipation (fun p => p.receiver_player_name) (fun p => p.receiver_player_id) data).map
            ParticipationRow.key := by
      intro hk
      rcases List.mem_map.mp hk with ⟨r, hrL, hrk⟩
      have : r ∈ (roleParticipation (fun p => p.rusher_player_name) (fun p => p.rusher_player_id) data ++
          roleParticipation (fun p => p.passer_player_name) (fun p => p.passer_player_id) data ++
          roleParticipation (fun p => p.receiver_player_name) (fun p => p.receiver_player_id) data).filter
            (fun r => r.key = (nameOf i, some i, w, o, d)) :=
        List.mem_filter.mpr ⟨hrL, by simp [hrk]⟩
      rw [hLfilter, hR.2.mpr hr0, hP.2.mpr hp0, hC.2.mpr hc0] at this
      simp at this
    rw [if_neg hmem, if_pos hn]
    rfl
  · have hmem : ((nameOf i, some i, w, o, d) : Key5) ∈
        (roleParticipation (fun p => p.rusher_player_name) (fun p => p.rusher_player_id) data ++
          roleParticipation (fun p => p.passer_player_name) (fun p => p.passer_player_id) data ++
          roleParticipation (fun p => p.receiver_player_name) (fun p => p.receiver_player_id) data).map
            ParticipationRow.key := by
      have hex : ¬(claimRolePlays (fun p => p.rusher_player_id) data i w o d = 0
          ∧ claimRolePlays (fun p => p.passer_player_id) data i w o d = 0
          ∧ claimRolePlays (fun p => p.receiver_player_id) data i w o d = 0) := by
        rintro ⟨h1, h2, h3⟩
        exact hn (by rw [h1, h2, h3])
      rcases Decidable.not_and_iff_or_not.mp hex with h1 | h23
      · rcases List.exists_mem_of_ne_nil _ (fun hnil => h1 (hR.2.mp hnil)) with ⟨r, hrm⟩
        rcases List.mem_filter.mp hrm with ⟨hrL, hrk⟩
        simp only [decide_eq_true_eq] at hrk
        exact List.mem_map.mpr ⟨r, List.mem_append.mpr (Or.inl (List.mem_append.mpr (Or.inl hrL))), hrk⟩
      · rcases Decidable.not_and_iff_or_not.mp h23 with h2 | h3
        · rcases List.exists_mem_of_ne_nil _ (fun hnil => h2 (hP.2.mp hnil)) with ⟨r, hrm⟩
          rcases List.mem_filter.mp hrm with ⟨hrL, hrk⟩
          simp only [decide_eq_true_eq] at hrk
          exact List.mem_map.mpr ⟨r, List.mem_append.mpr (Or.inl (List.mem_append.mpr (Or.inr hrL))), hrk⟩
        · rcases List.exists_mem_of_ne_nil _ (fun hnil => h3 (hC.2.mp hnil)) with ⟨r, hrm⟩
          rcases List.mem_filter.mp hrm with ⟨hrL, hrk⟩
          simp only [decide_eq_true_eq] at hrk
          exact List.mem_map.mpr ⟨r, List.mem_append.mpr (Or.inr hrL), hrk⟩
    rw [if_pos hmem, if_neg hn]
    simp only [List.map_cons, List.map_nil, mkParticipation]
    rw [hsum]

/-- Any play with a non-null role id contributes its (possibly null-teamed)
key as a group of the per-role table. -/
theorem key_mem_roleParticipation (pname pid : PlayRecord → Option String)
    (df : List PlayRecord) (p : PlayRecord) (hp : p ∈ df) (hid : pid p ≠ none) :
    ∃ r ∈ roleParticipation pname pid df,
      r.key = (pname p, pid p, p.week, p.posteam, p.defteam) := by
  simp only [roleParticipation]
  have hk : ((pname p, pid p, p.week, p.posteam, p.defteam) : Key5) ∈
      (df.filter (fun q => pid q ≠ none)).map
        (fun q => ((pname q, pid q, q.week, q.posteam, q.defteam) : Key5)) :=
    List.mem_map.mpr ⟨p, List.mem_filter.mpr ⟨hp, by simp [hid]⟩, rfl⟩
  exact ⟨_, (mem_groupMap _ _ _).mpr
    ⟨(pname p, pid p, p.week, p.posteam, p.defteam), hk, rfl⟩, key_mkParticipation _ _⟩

/-- Any key of a per-role table survives as a group of the merged
participation table. -/
theorem key_mem_get_players (data : List PlayRecord) (k : Key5)
    (hk : ∃ r ∈ get_rushers data ++ get_passers data ++ get_receivers data, r.key = k) :
    ∃ r ∈ get_players data, r.key = k := by
  simp only [get_players]
  rcases hk with ⟨r, hrL, hrk⟩
  have hm : k ∈ (get_rushers data ++ get_passers data ++ get_receivers data).map
      ParticipationRow.key := List.mem_map.mpr ⟨r, hrL, hrk⟩
  exact ⟨_, (mem_groupMap _ _ _).mpr ⟨k, hm, rfl⟩, key_mkParticipation _ _⟩

/-- C8: the per-role and merged participation group-bys retain every play
with a non-null role player id as (part of) a group carrying its exact
key — including keys whose `posteam` or `defteam` is null, which form
their own group rather than being dropped (`dropna=False`). -/
theorem C8_null_keyed_groups_retained (df : List PlayRecord) (p : PlayRecord)
    (hp : p ∈ df) (hid : p.rusher_player_id ≠ none) :
    (∃ r ∈ get_rushers df,
        r.key = (p.rusher_player_name, p.rusher_player_id, p.week, p.posteam, p.defteam))
    ∧ ∃ r ∈ get_players df,
        r.key = (p.rusher_player_name, p.rusher_player_id, p.week, p.posteam, p.defteam) := by
  have h1 := key_mem_roleParticipation (fun q => q.rusher_player_name)
    (fun q => q.rusher_player_id) df p hp hid
  refine ⟨h1, ?_⟩
  apply key_mem_get_players
  rcases h1 with ⟨r, hr, hk⟩
  exact ⟨r, List.mem_append.mpr (Or.inl (List.mem_append.mpr (Or.inl hr))), hk⟩

/-! ## Two-year roster lookup -/

theorem le_foldl_max (l : List Nat) (b : Nat) :
    b ≤ l.foldl max b ∧ ∀ a ∈ l, a ≤ l.foldl max b := by
  induction l generalizing b with
  | nil => simp
  | cons x t ih =>
    simp only [List.foldl_cons]
    refine ⟨le_trans (Nat.le_max_left b x) (ih (max b x)).1, ?_⟩
    intro a ha
    rcases List.mem_cons.mp ha with rfl | hat
    · exact le_trans (Nat.le_max_right b a) (ih (max b a)).1
    · exact (ih (max b x)).2 a hat

theorem foldl_max_le (l : List Nat) (b c : Nat) (hb : b ≤ c) (h : ∀ a ∈ l, a ≤ c) :
    l.foldl max b ≤ c := by
  induction l generalizing b with
  | nil => simpa
  | cons x t ih =>
    simp only [List.foldl_cons]
    exact ih (max b x) (max_le hb (h x (List.mem_cons_self x t)))
      (fun a ha => h a (List.mem_cons_of_mem x ha))

/-- C6: `get_two_year_roster_data` returns exactly the entries of the
concatenated two-season roster whose season equals the maximum season
present for their `gsis_id`: a player's less recent season's entries are
removed, and a player present in only one season keeps that season's
entries. -/
theorem C6_two_year_roster_max_season (roster_data roster_data_prev_year : List RosterEntry)
    (r : RosterEntry) :
    r ∈ get_two_year_roster_data roster_data roster_data_prev_year
      ↔ r ∈ roster_data ++ roster_data_prev_year
        ∧ ∀ s ∈ roster_data ++ roster_data_prev_year,
            s.gsis_id = r.gsis_id → s.season ≤ r.season := by
  simp only [get_two_year_roster_data]
  rw [List.mem_filter]
  constructor
  · rintro ⟨hmem, hmax⟩
    simp only [decide_eq_true_eq] at hmax
    refine ⟨hmem, ?_⟩
    intro s hs hsid
    have hsmem : s.season ∈ ((roster_data ++ roster_data_prev_year).filter
        (fun t => t.gsis_id = r.gsis_id)).map (fun t => t.season) :=
      List.mem_map.mpr ⟨s, List.mem_filter.mpr ⟨hs, by simp [hsid]⟩, rfl⟩
    exact le_trans ((le_foldl_max _ 0).2 _ hsmem) (le_of_eq hmax)
  · rintro ⟨hmem, hle⟩
    refine ⟨hmem, ?_⟩
    simp only [decide_eq_true_eq]
    apply Nat.le_antisymm
    · apply foldl_max_le _ _ _ (Nat.zero_le _)
      intro a ha
      rcases List.mem_map.mp ha with ⟨s, hsf, rfl⟩
      rcases List.mem_filter.mp hsf with ⟨hs, hsid⟩
      simp only [decide_eq_true_eq] at hsid
      exact hle s hs hsid
    · exact (le_foldl_max _ 0).2 _
        (List.mem_map.mpr ⟨r, List.mem_filter.mpr ⟨hmem, by simp⟩, rfl⟩)

/-! ## Attribution joiner -/

/-- Every row of the inner join arises from a matching
(participation, statistic) pair and carries the participation row's
(player id, week). -/
theorem mem_inner_join_stats (players : List ParticipationRow) (stats : List PlayerStat)
    (j : JoinedRow) (hj : j ∈ inner_join_stats players stats) :
    ∃ p ∈ players, ∃ s ∈ stats,
      (p.player_id = some s.player_id ∧ p.week = s.week)
      ∧ j.player_id = p.player_id ∧ j.week = p.week := by
  simp only [inner_join_stats, List.mem_flatMap] at hj
  rcases hj with ⟨p, hp, hjm⟩
  rcases List.mem_map.mp hjm with ⟨s, hsf, hjeq⟩
  rcases List.mem_filter.mp hsf with ⟨hs, hmatch⟩
  simp only [decide_eq_true_eq] at hmatch
  exact ⟨p, hp, s, hs, hmatch, by rw [← hjeq], by rw [← hjeq]⟩

/-- C7: inner-join semantics for the statistics join — a participation
row with no matching player-week statistic on (player id, week)
contributes no joined row — and left-join semantics for the roster
join — a joined row with no matching roster entry on player id is
retained with a null position (and null roster columns). -/
theorem C7_join_semantics (players : List ParticipationRow) (stats : List PlayerStat)
    (joined : List JoinedRow) (roster : List RosterEntry) :
    (∀ p ∈ players, (∀ s ∈ stats, ¬(p.player_id = some s.player_id ∧ p.week = s.week)) →
        ∀ j ∈ inner_join_stats players stats,
          ¬(j.player_id = p.player_id ∧ j.week = p.week))
    ∧ ∀ j ∈ joined, (∀ r ∈ roster, j.player_id ≠ some r.gsis_id) →
        j.triOf none none none ∈ left_join_roster joined roster := by
  constructor
  · rintro p _ hnomatch j hj ⟨hjid, hjw⟩
    rcases mem_inner_join_stats players stats j hj with ⟨p', _, s, hs, hmatch, hid', hw'⟩
    have h1 : p.player_id = some s.player_id := by rw [← hjid, hid', hmatch.1]
    have h2 : p.week = s.week := by rw [← hjw, hw', hmatch.2]
    exact hnomatch s hs ⟨h1, h2⟩
  · intro j hj hnone
    have hms : roster.filter (fun r => j.player_id = some r.gsis_id) = [] :=
      List.filter_eq_nil_iff.mpr (fun r hr => by simp [hnone r hr])
    simp only [left_join_roster, List.mem_flatMap]
    refine ⟨j, hj, ?_⟩
    rw [hms]
    simp

/-! ## Position aggregator -/

/-- A row of the left join carries either a null position (unmatched) or
the position of some entry of the roster lookup. -/
theorem pos_of_mem_left_join (joined : List JoinedRow) (roster : List RosterEntry)
    (t : TriRow) (ht : t ∈ left_join_roster joined roster) :
    t.pos = none ∨ ∃ r ∈ roster, t.pos = r.pos := by
  simp only [left_join_roster, List.mem_flatMap] at ht
  rcases ht with ⟨j, hj, hmem⟩
  by_cases hms : roster.filter (fun r => j.player_id = some r.gsis_id) = []
  · rw [if_pos hms] at hmem
    rcases List.mem_singleton.mp hmem with rfl
    left
    rfl
  · rw [if_neg hms] at hmem
    rcases List.mem_map.mp hmem with ⟨r, hrf, rfl⟩
    exact Or.inr ⟨r, List.mem_of_mem_filter hrf, rfl⟩

/-- If no roster entry of either season carries the literal position
`non_skill`, no attributed row does. -/
theorem tri_pos_ne_non_skill (pbp : List PlayRecord) (stats : List PlayerStat)
    (roster roster_prev : List RosterEntry)
    (hros : ∀ r ∈ roster ++ roster_prev, r.pos ≠ some "non_skill")
    (t : TriRow) (ht : t ∈ tri_data pbp stats roster roster_prev) :
    t.pos ≠ some "non_skill" := by
  rcases pos_of_mem_left_join _ _ t ht with h0 | ⟨r, hr, heq⟩
  · simp [h0]
  · rw [heq]
    exact hros r (List.mem_of_mem_filter hr)

/-- Synthetic non-skill rows carry the `non_skill` position and a null
`fantasy_points_ppr`. -/
theorem mem_non_skill_props (tri : List TriRow) (f : FixedRow)
    (hf : f ∈ non_skill_pos_data tri) :
    f.pos = some "non_skill" ∧ f.fantasy_points_ppr = none := by
  simp only [non_skill_pos_data] at hf
  rcases List.mem_map.mp hf with ⟨kv, -, rfl⟩
  exact ⟨rfl, rfl⟩

/-- The group a synthetic non-skill row aggregates, stated with the
grouping key as a conjunction of column constraints. -/
theorem non_skill_group_eq (tri : List TriRow) (w : Nat) (o d : Option String) :
    (unconventional_ball_carriers tri).filter
        (fun t => ((t.week, t.posteam, t.defteam) : Nat × Option String × Option String)
          = (w, o, d))
      = (unconventional_ball_carriers tri).filter
          (fun t => t.week = w ∧ t.posteam = o ∧ t.defteam = d) := by
  apply List.filter_congr
  intro t _
  rw [decide_eq_decide]
  simp [Prod.mk.injEq]

/-- A synthetic non-skill row for (week, offense, defense) exists exactly
when the group's summed standard fantasy points strictly exceed 6. -/
theorem non_skill_mem_iff (tri : List TriRow) (w : Nat) (o d : Option String) :
    (∃ f ∈ non_skill_pos_data tri, f.week = some w ∧ f.posteam = o ∧ f.defteam = d)
      ↔ 6 < (((unconventional_ball_carriers tri).filter
          (fun t => t.week = w ∧ t.posteam = o ∧ t.defteam = d)).map
            (fun t => t.fantasy_points)).sum := by
  constructor
  · rintro ⟨f, hf, hw, ho, hd⟩
    simp only [non_skill_pos_data] at hf
    rcases List.mem_map.mp hf with ⟨kv, hkv, rfl⟩
    rcases List.mem_filter.mp hkv with ⟨hkvg, h6⟩
    simp only [decide_eq_true_eq] at h6
    rcases (mem_groupMap _ _ _).mp hkvg with ⟨k, -, rfl⟩
    obtain ⟨k1, k2, k3⟩ := k
    simp only [Option.some.injEq] at hw
    cases hw
    cases ho
    cases hd
    rw [← non_skill_group_eq]
    exact h6
  · intro h6
    have hne : (unconventional_ball_carriers tri).filter
        (fun t => t.week = w ∧ t.posteam = o ∧ t.defteam = d) ≠ [] := by
      intro hnil
      rw [hnil] at h6
      simp only [List.map_nil, List.sum_nil] at h6
      exact absurd h6 (by norm_num)
    rcases List.exists_mem_of_ne_nil _ hne with ⟨t, htm⟩
    rcases List.mem_filter.mp htm with ⟨htu, htk⟩
    simp only [decide_eq_true_eq] at htk
    have hkmem : ((w, o, d) : Nat × Option String × Option String) ∈
        (unconventional_ball_carriers tri).map (fun t => (t.week, t.posteam, t.defteam)) :=
      List.mem_map.mpr ⟨t, htu, by simp [htk.1, htk.2.1, htk.2.2]⟩
    refine ⟨_, List.mem_map.mpr ⟨((w, o, d),
        (((unconventional_ball_carriers tri).filter
          (fun t => ((t.week, t.posteam, t.defteam) : Nat × Option String × Option String)
            = (w, o, d))).map (fun t => t.fantasy_points)).sum), ?_, rfl⟩, rfl, rfl, rfl⟩
    refine List.mem_filter.mpr ⟨(mem_groupMap _ _ _).mpr ⟨(w, o, d), hkmem, rfl⟩, ?_⟩
    simp only [decide_eq_true_eq]
    rw [non_skill_group_eq]
    exact h6

/-- A filtered `fixed_data` row carrying the `non_skill` position is a
synthetic non-skill row, provided no attributed row carries that
position. -/
theorem mem_fixed_filtered_non_skill (tri : List TriRow)
    (htri : ∀ t ∈ tri, t.pos ≠ some "non_skill")
    (f : FixedRow) (hf : f ∈ fixed_filtered tri) (hpos : f.pos = some "non_skill") :
    f ∈ non_skill_pos_data tri := by
  rcases List.mem_filter.mp hf with ⟨hfc, -⟩
  simp only [fixed_concat, List.append_assoc, List.mem_append, List.mem_singleton] at hfc
  rcases hfc with hf1 | hf2 | hf3
  · rcases List.mem_map.mp hf1 with ⟨t, ht, rfl⟩
    exact absurd hpos (htri t ht)
  · exact hf2
  · rw [hf3] at hpos
    simp [positionAssignmentRow] at hpos

theorem outKey_build (k : OutKey) (a b : Rat) :
    ({ week := k.1, defteam := k.2.1, posteam := k.2.2.1, pos := k.2.2.2,
       fantasy_points := a, fantasy_points_ppr := b } : FpaRow).outKey = k := by
  obtain ⟨x, y, z, u⟩ := k
  rfl

/-- Every key occurring in `fixed_data` yields a row of the final
aggregation carrying that key. -/
theorem mem_fpa_groupby_of_key (fixed : List FixedRow) (k : OutKey)
    (hk : k ∈ fixed.map FixedRow.outKey) :
    ∃ row ∈ fpa_groupby fixed, row.outKey = k := by
  simp only [fpa_groupby]
  exact ⟨_, (mem_groupMap _ _ _).mpr ⟨k, hk, rfl⟩, outKey_build k _ _⟩

/-- C4: every row of the final aggregated allowance table carries a
position in {QB, RB, WR, TE, non_skill}; no other roster position (and
no null position) survives to the output. -/
theorem C4_output_positions (pbp : List PlayRecord) (stats : List PlayerStat)
    (roster roster_prev : List RosterEntry) (row : FpaRow)
    (hrow : row ∈ get_fpa_by_position_compute pbp stats roster roster_prev) :
    row.pos = some "QB" ∨ row.pos = some "RB" ∨ row.pos = some "WR"
      ∨ row.pos = some "TE" ∨ row.pos = some "non_skill" := by
  simp only [get_fpa_by_position_compute, fpa_groupby] at hrow
  rcases (mem_groupMap _ _ _).mp hrow with ⟨k, hk, rfl⟩
  rcases List.mem_map.mp hk with ⟨f, hf, rfl⟩
  rcases List.mem_filter.mp hf with ⟨-, hkeep⟩
  simp only [decide_eq_true_eq] at hkeep
  simpa [FixedRow.outKey] using hkeep

/-- C2: a `non_skill` row for (week, offense, defense) appears in the
final table exactly when the standard fantasy points of that group's
attributed rows with position outside {QB, RB, FB, TE, WR} (null
included) sum to strictly more than 6; groups at or below the threshold
produce no `non_skill` row.  (Positions come from the roster, which
never carries the literal position `non_skill`.) -/
theorem C2_non_skill_threshold (pbp : List PlayRecord) (stats : List PlayerStat)
    (roster roster_prev : List RosterEntry)
    (hros : ∀ r ∈ roster ++ roster_prev, r.pos ≠ some "non_skill")
    (w : Nat) (o d : Option String) :
    (∃ row ∈ get_fpa_by_position_compute pbp stats roster roster_prev,
        row.pos = some "non_skill" ∧ row.week = some w ∧ row.posteam = o ∧ row.defteam = d)
      ↔ 6 < (((tri_data pbp stats roster roster_prev).filter
          (fun t => ¬(t.pos = some "QB" ∨ t.pos = some "RB" ∨ t.pos = some "FB"
              ∨ t.pos = some "TE" ∨ t.pos = some "WR")
            ∧ t.week = w ∧ t.posteam = o ∧ t.defteam = d)).map
            (fun t => t.fantasy_points)).sum := by
  have htri := tri_pos_ne_non_skill pbp stats roster roster_prev hros
  have hsum_eq : ((tri_data pbp stats roster roster_prev).filter
        (fun t => ¬(t.pos = some "QB" ∨ t.pos = some "RB" ∨ t.pos = some "FB"
            ∨ t.pos = some "TE" ∨ t.pos = some "WR")
          ∧ t.week = w ∧ t.posteam = o ∧ t.defteam = d))
      = (unconventional_ball_carriers (tri_data pbp stats roster roster_prev)).filter
          (fun t => t.week = w ∧ t.posteam = o ∧ t.defteam = d) := by
    rw [unconventional_ball_carriers, List.filter_filter]
    apply List.filter_congr
    intro t _
    rw [← Bool.decide_and, decide_eq_decide]
    constructor
    · rintro ⟨hnp, hk⟩
      exact ⟨hk, hnp⟩
    · rintro ⟨hk, hnp⟩
      exact ⟨hnp, hk⟩
  rw [hsum_eq, ← non_skill_mem_iff]
  constructor
  · rintro ⟨row, hrow, hpos, hw, ho, hd⟩
    simp only [get_fpa_by_position_compute, fpa_groupby] at hrow
    rcases (mem_groupMap _ _ _).mp hrow with ⟨k, hk, rfl⟩
    rcases List.mem_map.mp hk with ⟨f, hf, rfl⟩
    have hfpos : f.pos = some "non_skill" := by simpa [FixedRow.outKey] using hpos
    have hfw : f.week = some w := by simpa [FixedRow.outKey] using hw
    have hfo : f.posteam = o := by simpa [FixedRow.outKey] using ho
    have hfd : f.defteam = d := by simpa [FixedRow.outKey] using hd
    exact ⟨f, mem_fixed_filtered_non_skill _ htri f hf hfpos, hfw, hfo, hfd⟩
  · rintro ⟨f, hf, hw, ho, hd⟩
    have hprops := mem_non_skill_props _ f hf
    have hfmem : f ∈ fixed_filtered (tri_data pbp stats roster roster_prev) := by
      refine List.mem_filter.mpr ⟨?_, by simp [hprops.1]⟩
      simp only [fixed_concat, List.append_assoc, List.mem_append]
      exact Or.inr (Or.inl hf)
    rcases mem_fpa_groupby_of_key _ f.outKey (List.mem_map.mpr ⟨f, hfmem, rfl⟩)
      with ⟨row, hrowm, hrowk⟩
    have hcomp : row.week = f.week ∧ row.defteam = f.defteam
        ∧ row.posteam = f.posteam ∧ row.pos = f.pos := by
      simp only [FpaRow.outKey, FixedRow.outKey, Prod.mk.injEq] at hrowk
      exact ⟨hrowk.1, hrowk.2.1, hrowk.2.2.1, hrowk.2.2.2⟩
    exact ⟨row, hrowm, by rw [hcomp.2.2.2, hprops.1], by rw [hcomp.1, hw],
      by rw [hcomp.2.2.1, ho], by rw [hcomp.2.1, hd]⟩

/-- C3: every row of the final aggregated table whose position is
`non_skill` has `fantasy_points_ppr` equal to 0 — the synthetic rows
carry no PPR value, and pandas' null-skipping sum of an all-null column
is 0.  (Positions come from the roster, which never carries the literal
position `non_skill`.) -/
theorem C3_non_skill_zero_ppr (pbp : List PlayRecord) (stats : List PlayerStat)
    (roster roster_prev : List RosterEntry)
    (hros : ∀ r ∈ roster ++ roster_prev, r.pos ≠ some "non_skill")
    (row : FpaRow)
    (hrow : row ∈ get_fpa_by_position_compute pbp stats roster roster_prev)
    (hpos : row.pos = some "non_skill") :
    row.fantasy_points_ppr = 0 := by
  have htri := tri_pos_ne_non_skill pbp stats roster roster_prev hros
  simp only [get_fpa_by_position_compute, fpa_groupby] at hrow
  rcases (mem_groupMap _ _ _).mp hrow with ⟨k, hk, rfl⟩
  apply List.sum_eq_zero
  intro x hx
  rcases List.mem_map.mp hx with ⟨f, hfg, rfl⟩
  rcases List.mem_filter.mp hfg with ⟨hff, hfk⟩
  simp only [decide_eq_true_eq] at hfk
  have hfpos : f.pos = some "non_skill" := by
    have hcomp : f.outKey.2.2.2 = k.2.2.2 := by rw [hfk]
    simpa [FixedRow.outKey] using hcomp.trans hpos
  have hns := mem_fixed_filtered_non_skill _ htri f hff hfpos
  rw [(mem_non_skill_props _ f hns).2]
  rfl

/-! ## Cache behaviour and determinism -/

/-- C9: a present cache artifact is returned as-is with the cache
unchanged; on a miss, a fetch failure propagates as the call's error
with no cache artifact written; on a miss with successful fetches, the
full table is computed, written to the cache, and returned. -/
theorem C9_cache_behaviour (t : List FpaRow) (f : Except String RawInputs)
    (e : String) (raw : RawInputs) :
    get_fpa_by_position (some t) f = (Except.ok t, some t)
    ∧ get_fpa_by_position none (Except.error e) = (Except.error e, none)
    ∧ get_fpa_by_position none (Except.ok raw) =
        (Except.ok (get_fpa_by_position_compute raw.pbp raw.player_stats
          raw.roster raw.roster_prev),
         some (get_fpa_by_position_compute raw.pbp raw.player_stats
          raw.roster raw.roster_prev)) :=
  ⟨rfl, rfl, rfl⟩

/-- C10: the aggregation pipeline is deterministic — two runs of the
cache-miss computation on identical play-by-play, player-stats and
roster inputs produce identical output tables. -/
theorem C10_deterministic (x y : RawInputs) (h : x = y) :
    get_fpa_by_position_compute x.pbp x.player_stats x.roster x.roster_prev
      = get_fpa_by_position_compute y.pbp y.player_stats y.roster y.roster_prev := by
  rw [h]

/-! ## Concrete data

Small concrete datasets used to exhibit the FB normalisation bug and to
instantiate the theorems with hypotheses. -/

/-- A regular-season running play by player `00-1` for NE against MIA in
week 1. -/
def fbPlay : PlayRecord :=
  { play_id := 1, week := 1, posteam := some "NE", defteam := some "MIA",
    special_teams_play := false, epa := some 1, season_type := "REG", play_type := "run",
    rusher_player_id := some "00-1", rusher_player_name := some "J.Full",
    passer_player_id := none, passer_player_name := none,
    receiver_player_id := none, receiver_player_name := none }

/-- Player `00-1` scored 8 standard and 8 PPR fantasy points in week 1. -/
def fbStat : PlayerStat :=
  { player_id := "00-1", week := 1, fantasy_points := 8, fantasy_points_ppr := 8 }

/-- Player `00-1` is rostered as a fullback. -/
def fbRoster : RosterEntry := { gsis_id := "00-1", season := 2021, pos := some "FB" }

/-- Player `00-1` rostered as a running back. -/
def rbRoster : RosterEntry := { gsis_id := "00-1", season := 2021, pos := some "RB" }

/-- Player `00-1` rostered as a kicker. -/
def kRoster : RosterEntry := { gsis_id := "00-1", season := 2021, pos := some "K" }

/-- Player `00-1` scored 9 standard and 9 PPR fantasy points in week 1. -/
def kStat : PlayerStat :=
  { player_id := "00-1", week := 1, fantasy_points := 9, fantasy_points_ppr := 9 }

/-- C1 (refuted by the code): the source's line 178,
`fixed_data.loc['position'] = fixed_data['position'].replace('FB', 'RB')`,
never updates the `position` column (it enlarges the frame with an
all-null row labelled `'position'`), so an attributed FB row keeps
position `FB` and is removed by the subsequent position filter: with a
single fullback play worth 8 fantasy points, the attributed row with
position `FB` and 8 points exists, yet the final aggregated table is
empty — the points appear neither under `RB` (as the claim requires)
nor under `FB`. -/
theorem C1_fb_points_dropped :
    (∃ t ∈ tri_data [fbPlay] [fbStat] [fbRoster] [],
        t.pos = some "FB" ∧ t.fantasy_points = 8)
    ∧ get_fpa_by_position_compute [fbPlay] [fbStat] [fbRoster] [] = [] := by
  constructor
  · decide
  · decide

/-! ## Witnesses -/

unseal Rat.add in
theorem C2_witness :
    ∃ row ∈ get_fpa_by_position_compute [fbPlay] [kStat] [kRoster] [],
      row.pos = some "non_skill" ∧ row.week = some 1 ∧ row.posteam = some "NE"
        ∧ row.defteam = some "MIA" :=
  (C2_non_skill_threshold [fbPlay] [kStat] [kRoster] [] (by decide) 1
    (some "NE") (some "MIA")).mpr (by decide)

/-- The single aggregated row of the kicker scenario. -/
def nsDemoRow : FpaRow :=
  { week := some 1, defteam := some "MIA", posteam := some "NE",
    pos := some "non_skill", fantasy_points := 9, fantasy_points_ppr := 0 }

unseal Rat.add in
theorem C3_witness :
    nsDemoRow ∈ get_fpa_by_position_compute [fbPlay] [kStat] [kRoster] []
    ∧ nsDemoRow.fantasy_points_ppr = 0 := by
  have hmem : nsDemoRow ∈ get_fpa_by_position_compute [fbPlay] [kStat] [kRoster] [] := by
    decide
  exact ⟨hmem, C3_non_skill_zero_ppr [fbPlay] [kStat] [kRoster] [] (by decide)
    nsDemoRow hmem (by decide)⟩

/-- The single aggregated row of the running-back scenario. -/
def rbDemoRow : FpaRow :=
  { week := some 1, defteam := some "MIA", posteam := some "NE",
    pos := some "RB", fantasy_points := 8, fantasy_points_ppr := 8 }

unseal Rat.add in
theorem C4_witness :
    rbDemoRow.pos = some "QB" ∨ rbDemoRow.pos = some "RB" ∨ rbDemoRow.pos = some "WR"
      ∨ rbDemoRow.pos = some "TE" ∨ rbDemoRow.pos = some "non_skill" :=
  C4_output_positions [fbPlay] [fbStat] [rbRoster] [] rbDemoRow (by decide)

/-- Two rushing plays and one reception by player `00-1` (`A.Back`). -/
def rushPlayA : PlayRecord :=
  { play_id := 1, week := 1, posteam := some "NE", defteam := some "MIA",
    special_teams_play := false, epa := some 1, season_type := "REG", play_type := "run",
    rusher_player_id := some "00-1", rusher_player_name := some "A.Back",
    passer_player_id := none, passer_player_name := none,
    receiver_player_id := none, receiver_player_name := none }

def rushPlayB : PlayRecord :=
  { play_id := 2, week := 1, posteam := some "NE", defteam := some "MIA",
    special_teams_play := false, epa := some 1, season_type := "REG", play_type := "run",
    rusher_player_id := some "00-1", rusher_player_name := some "A.Back",
    passer_player_id := none, passer_player_name := none,
    receiver_player_id := none, receiver_player_name := none }

def recvPlayA : PlayRecord :=
  { play_id := 3, week := 1, posteam := some "NE", defteam := some "MIA",
    special_teams_play := false, epa := some 1, season_type := "REG", play_type := "pass",
    rusher_player_id := none, rusher_player_name := none,
    passer_player_id := some "00-2", passer_player_name := some "Q.Back",
    receiver_player_id := some "00-1", receiver_player_name := some "A.Back" }

/-- Name lookup for the witness data: every id maps to `A.Back` except
the demo passer. -/
def demoNameOf : String → Option String :=
  fun i => if i = "00-2" then some "Q.Back" else some "A.Back"

theorem C5_witness :
    ((get_players [rushPlayA, rushPlayB, recvPlayA]).filter
        (fun r => r.key = (some "A.Back", some "00-1", 1, some "NE", some "MIA"))).map
      (fun r => r.plays) = [3] := by
  have h := C5_get_players_one_row_per_player [rushPlayA, rushPlayB, recvPlayA] demoNameOf
    (by
      intro p hp i hi
      simp only [List.mem_cons, List.not_mem_nil, or_false] at hp
      rcases hp with rfl | rfl | rfl <;> simp [rushPlayA, rushPlayB, recvPlayA] at hi <;>
        (subst hi; decide))
    (by
      intro p hp i hi
      simp only [List.mem_cons, List.not_mem_nil, or_false] at hp
      rcases hp with rfl | rfl | rfl <;> simp [rushPlayA, rushPlayB, recvPlayA] at hi <;>
        (subst hi; decide))
    (by
      intro p hp i hi
      simp only [List.mem_cons, List.not_mem_nil, or_false] at hp
      rcases hp with rfl | rfl | rfl <;> simp [rushPlayA, rushPlayB, recvPlayA] at hi <;>
        (subst hi; decide))
    "00-1" 1 (some "NE") (some "MIA")
  have hname : demoNameOf "00-1" = some "A.Back" := by decide
  rw [hname] at h
  rw [h]
  decide

/-- A participation row with no matching statistic. -/
def p7 : ParticipationRow :=
  { player := some "X.Spec", player_id := some "00-9", week := 2,
    posteam := some "DAL", defteam := some "PHI", plays := 3 }

/-- A participation row matching `s8`. -/
def p8 : ParticipationRow :=
  { player := some "Y.Starter", player_id := some "00-8", week := 2,
    posteam := some "DAL", defteam := some "PHI", plays := 10 }

def s8 : PlayerStat :=
  { player_id := "00-8", week := 2, fantasy_points := 7, fantasy_points_ppr := 7 }

/-- The joined row arising from `p8` and `s8`. -/
def j8 : JoinedRow :=
  { player := some "Y.Starter", player_id := some "00-8", week := 2,
    posteam := some "DAL", defteam := some "PHI", plays := 10,
    fantasy_points := 7, fantasy_points_ppr := 7 }

/-- A roster entry matching neither demo player. -/
def r7 : RosterEntry := { gsis_id := "00-7", season := 2021, pos := some "WR" }

theorem C7_witness :
    ¬(j8.player_id = p7.player_id ∧ j8.week = p7.week)
    ∧ j8.triOf none none none ∈ left_join_roster [j8] [r7] :=
  ⟨(C7_join_semantics [p7, p8] [s8] [j8] [r7]).1 p7 (by decide) (by decide) j8 (by decide),
   (C7_join_semantics [p7, p8] [s8] [j8] [r7]).2 j8 (by decide) (by decide)⟩

/-- A play whose offense team is null. -/
def nullTeamPlay : PlayRecord :=
  { play_id := 9, week := 3, posteam := none, defteam := some "PHI",
    special_teams_play := false, epa := some 1, season_type := "REG", play_type := "run",
    rusher_player_id := some "00-1", rusher_player_name := some "A.Back",
    passer_player_id := none, passer_player_name := none,
    receiver_player_id := none, receiver_player_name := none }

theorem C8_witness :
    (∃ r ∈ get_rushers [nullTeamPlay],
        r.key = (nullTeamPlay.rusher_player_name, nullTeamPlay.rusher_player_id,
          nullTeamPlay.week, nullTeamPlay.posteam, nullTeamPlay.defteam))
    ∧ ∃ r ∈ get_players [nullTeamPlay],
        r.key = (nullTeamPlay.rusher_player_name, nullTeamPlay.rusher_player_id,
          nullTeamPlay.week, nullTeamPlay.posteam, nullTeamPlay.defteam) :=
  C8_null_keyed_groups_retained [nullTeamPlay] nullTeamPlay (by decide) (by decide)

theorem C10_witness :
    get_fpa_by_position_compute [fbPlay] [fbStat] [rbRoster] []
      = get_fpa_by_position_compute [fbPlay] [fbStat] [rbRoster] [] :=
  C10_deterministic ⟨[fbPlay], [fbStat], [rbRoster], []⟩ ⟨[fbPlay], [fbStat], [rbRoster], []⟩ rfl

end FPA
